import Mathlib

/-!
# Verification of the data-ingestion core of XGBoost-Tuning-Lab

This file gives a shallow embedding, in Lean 4, of the data-ingestion logic
of the repository (`src/data_ingestor.py` together with the reload step of
`src/data_loader.py`), and proves or refutes the specified properties of
that logic.

Modelling conventions:
* Python strings are Lean `String`s; the handful of `str` / `os.path`
  operations the code uses (`endswith`, `startswith`, `os.path.basename`,
  `os.path.splitext`, `str.split`) are re-implemented below by structural
  recursion over the character list, following Python's semantics, so that
  every definition is executable and kernel-reducible.
* The file system is an association list from paths to file contents
  (`Fs`).  `os.path.exists` is `(fsLookup fs path).isSome`.
* A pandas `DataFrame` is abstracted to the structure the program observes
  of it: its column list (`df.columns.tolist()`) and its rows
  (`len(df)` is the row count).
* The pandas readers (`pd.read_csv`, `pd.read_excel`, `pd.read_parquet`,
  `pd.read_json`) are external-library calls; they are modelled as
  functions on the stored `FileContent`: textual content is parsed by the
  CSV reader line-by-line with the given delimiter, while the binary /
  structured formats (`xlsx`, `parquet`, record-oriented `json`) succeed
  exactly on content of the matching kind and fail with a parse error
  otherwise, as the specification's `ParseError` clause describes for
  mismatched content.
* Python exceptions become an error type `PyErr`; raising is returning
  `Except.error`, and a `try/except` block is a `match` on the result.
* `warnings.warn` calls are collected into a returned list of warning
  strings.
-/

namespace DataIngest

/-! ## String utilities (Python `str` / `os.path` semantics) -/

/-- `leadsWith p l` is true when the character list `p` is an initial
segment of `l` (helper for `str.startswith` / `str.endswith`). -/
def leadsWith : List Char → List Char → Bool
  | [], _ => true
  | _ :: _, [] => false
  | p :: ps, c :: cs => p = c && leadsWith ps cs

/-- Python `s.startswith(p)`. -/
def strStartsWith (s p : String) : Bool :=
  leadsWith p.data s.data

/-- Python `s.endswith(p)`. -/
def strEndsWith (s p : String) : Bool :=
  leadsWith p.data.reverse s.data.reverse

/-- Split a character list on a separator character, Python `str.split(c)`
semantics: `"a,b".split(',') = ["a","b"]`, `"".split(',') = [""]`. -/
def splitOnChar (c : Char) : List Char → List (List Char)
  | [] => [[]]
  | x :: xs =>
    let r := splitOnChar c xs
    if x = c then [] :: r
    else
      match r with
      | [] => [[x]]
      | h :: t => (x :: h) :: t

/-- Python `s.split(c)` on strings. -/
def strSplit (c : Char) (s : String) : List String :=
  (splitOnChar c s.data).map String.mk

/-- Python `os.path.basename`: the component after the last `/`. -/
def basename (p : String) : String :=
  (strSplit '/' p).getLastD p

/-- Python `os.path.splitext(p)[1]`: the extension (with its dot) of the
last path component, where leading dots of the component do not start an
extension (`splitext('.bashrc') = ('.bashrc', '')`). -/
def splitextExt (p : String) : String :=
  let base := (splitOnChar '/' p.data).getLastD []
  let rest := base.dropWhile (fun c => c = '.')
  match (splitOnChar '.' rest).getLast? with
  | some last => if (splitOnChar '.' rest).length ≥ 2 then String.mk ('.' :: last) else ""
  | none => ""

/-! ## Data model -/

/-- The shape of a pandas `DataFrame` as observed by the program: the
column names (`df.columns.tolist()`) and the data rows (`len(df)` is the
number of rows). -/
structure Df where
  columns : List String
  rows : List (List String)
deriving Repr, DecidableEq

/-- The content of a file on disk.  Text files carry their lines; the
structured binary/record formats carry the table they encode; a ZIP
archive carries its members (name and content). -/
inductive FileContent where
  | text (lines : List String)
  | xlsxData (df : Df)
  | parquetData (df : Df)
  | jsonData (df : Df)
  | zipArchive (members : List (String × FileContent))

/-- Python exceptions raised by the modelled code: `ValueError`,
`FileNotFoundError`, and a catch-all for other exception classes
(`BadZipFile`, `NameError`, ...). -/
inductive PyErr where
  | valueError (msg : String)
  | fileNotFoundError (msg : String)
  | otherError (msg : String)
deriving Repr, DecidableEq

/-- Python `str(e)`: the message of an exception. -/
def errStr : PyErr → String
  | .valueError m => m
  | .fileNotFoundError m => m
  | .otherError m => m

/-- The file system: an association list from paths to contents. -/
abbrev Fs := List (String × FileContent)

/-- Look a key up in a string-keyed association list (first match wins). -/
def lookupStr {α : Type} : List (String × α) → String → Option α
  | [], _ => none
  | (k, v) :: rest, q => if q = k then some v else lookupStr rest q

/-- `os.path.exists`-style lookup in the modelled file system. -/
def fsLookup (fs : Fs) (path : String) : Option FileContent :=
  lookupStr fs path

/-- The `import_instructions` recorded in metadata: the name of the pandas
function to call and its keyword arguments (all values here are strings). -/
structure ImportInstructions where
  function : String
  arguments : List (String × String)
deriving Repr, DecidableEq

/-- One metadata record as assembled by the ingestors
(`src/data_ingestor.py`). -/
structure Metadata where
  file_name : String
  file_type : String
  columns : List String
  row_count : Nat
  import_instructions : ImportInstructions
deriving Repr, DecidableEq

/-! ## Pandas readers (external library, modelled on `FileContent`) -/

/-- `pd.read_csv` on file content with a given delimiter: the first line
of a text file is the header, the remaining lines are the rows.  An empty
text file raises (pandas `EmptyDataError`); non-textual content raises a
parse/decode error. -/
def readCsvContent (delim : Char) : FileContent → Except PyErr Df
  | .text [] => .error (.valueError "No columns to parse from file")
  | .text (h :: t) => .ok ⟨strSplit delim h, t.map (strSplit delim)⟩
  | _ => .error (.valueError "Error tokenizing data")

/-- `pd.read_excel` on file content: succeeds exactly on spreadsheet
content. -/
def readExcelContent : FileContent → Except PyErr Df
  | .xlsxData df => .ok df
  | _ => .error (.valueError "Excel file format cannot be determined")

/-- `pd.read_parquet` on file content: succeeds exactly on columnar
content. -/
def readParquetContent : FileContent → Except PyErr Df
  | .parquetData df => .ok df
  | _ => .error (.valueError "Parquet magic bytes not found")

/-- `pd.read_json` on file content: succeeds exactly on record-oriented
JSON content. -/
def readJsonContent : FileContent → Except PyErr Df
  | .jsonData df => .ok df
  | _ => .error (.valueError "Trailing data")

/-- `pd.read_csv(path, delimiter)` including the file-system access: a
missing path raises `FileNotFoundError`. -/
def pdReadCsv (fs : Fs) (path : String) (delim : Char) : Except PyErr Df :=
  match fsLookup fs path with
  | none => .error (.fileNotFoundError ("No such file or directory: " ++ path))
  | some c => readCsvContent delim c

/-- `pd.read_excel(path)` including the file-system access. -/
def pdReadExcel (fs : Fs) (path : String) : Except PyErr Df :=
  match fsLookup fs path with
  | none => .error (.fileNotFoundError ("No such file or directory: " ++ path))
  | some c => readExcelContent c

/-- `pd.read_parquet(path)` including the file-system access. -/
def pdReadParquet (fs : Fs) (path : String) : Except PyErr Df :=
  match fsLookup fs path with
  | none => .error (.fileNotFoundError ("No such file or directory: " ++ path))
  | some c => readParquetContent c

/-- `pd.read_json(path)` including the file-system access. -/
def pdReadJson (fs : Fs) (path : String) : Except PyErr Df :=
  match fsLookup fs path with
  | none => .error (.fileNotFoundError ("No such file or directory: " ++ path))
  | some c => readJsonContent c

/-! ## `DataIngestor.read_file` (src/data_ingestor.py lines 107-155) -/

/-- `DataIngestor.read_file(file_path, file_extension)`: dispatches on the
declared extension, reads the file with the matching pandas reader and
returns the parsed table together with the recorded import instructions. -/
def read_file (fs : Fs) (path : String) (ext : String) :
    Except PyErr (Df × ImportInstructions) :=
  if ext = ".csv" then
    match pdReadCsv fs path ',' with
    | .ok df => .ok (df, ⟨"pd.read_csv", [("filepath_or_buffer", path)]⟩)
    | .error e => .error e
  else if ext = ".xlsx" then
    match pdReadExcel fs path with
    | .ok df => .ok (df, ⟨"pd.read_excel", [("io", path)]⟩)
    | .error e => .error e
  else if ext = ".parquet" then
    match pdReadParquet fs path with
    | .ok df => .ok (df, ⟨"pd.read_parquet", [("path", path)]⟩)
    | .error e => .error e
  else if ext = ".json" then
    match pdReadJson fs path with
    | .ok df => .ok (df, ⟨"pd.read_json", [("path_or_buf", path)]⟩)
    | .error e => .error e
  else if ext = ".txt" then
    match pdReadCsv fs path '\t' with
    | .ok df => .ok (df, ⟨"pd.read_csv", [("filepath_or_buffer", path), ("delimiter", "\t")]⟩)
    | .error e => .error e
  else
    .error (.valueError ("Unsupported file type: " ++ ext))

/-! ## Per-format ingestors (src/data_ingestor.py lines 157-378)

Each `ingest` method becomes a function from the file system and the path
to `Except PyErr Metadata`.  The `try/except Exception as e: raise
ValueError(...)` blocks become a `match` wrapping the reader error. -/

/-- `CsvDataIngestor.ingest` (lines 219-254). -/
def csvIngest (fs : Fs) (path : String) : Except PyErr Metadata :=
  if !strEndsWith path ".csv" then
    .error (.valueError "The provided file is not a CSV file.")
  else if (fsLookup fs path).isNone then
    .error (.fileNotFoundError ("The file " ++ path ++ " does not exist."))
  else
    match read_file fs path ".csv" with
    | .ok (df, instr) => .ok ⟨basename path, ".csv", df.columns, df.rows.length, instr⟩
    | .error e => .error (.valueError ("Failed to ingest CSV file: " ++ errStr e))

/-- `ExcelDataIngestor.ingest` (lines 257-285).  Note: no existence
pre-check; a missing file surfaces as the wrapped reader error. -/
def excelIngest (fs : Fs) (path : String) : Except PyErr Metadata :=
  if !(strEndsWith path ".xlsx" || strEndsWith path ".xls") then
    .error (.valueError "The provided file is not an Excel file.")
  else
    match read_file fs path ".xlsx" with
    | .ok (df, instr) => .ok ⟨basename path, ".xlsx", df.columns, df.rows.length, instr⟩
    | .error e => .error (.valueError ("Failed to ingest Excel file: " ++ errStr e))

/-- `ParquetDataIngestor.ingest` (lines 288-316).  No existence
pre-check. -/
def parquetIngest (fs : Fs) (path : String) : Except PyErr Metadata :=
  if !strEndsWith path ".parquet" then
    .error (.valueError "The provided file is not a Parquet file.")
  else
    match read_file fs path ".parquet" with
    | .ok (df, instr) => .ok ⟨basename path, ".parquet", df.columns, df.rows.length, instr⟩
    | .error e => .error (.valueError ("Failed to ingest Parquet file: " ++ errStr e))

/-- `JsonDataIngestor.ingest` (lines 319-347).  The source sets
`'file_type': '.parquet'` (line 339) and wraps failures as
`'Failed to ingest Parquet file: ...'` (line 347); both are preserved
here exactly as written. -/
def jsonIngest (fs : Fs) (path : String) : Except PyErr Metadata :=
  if !strEndsWith path ".json" then
    .error (.valueError "The provided file is not a JSON file.")
  else
    match read_file fs path ".json" with
    | .ok (df, instr) => .ok ⟨basename path, ".parquet", df.columns, df.rows.length, instr⟩
    | .error e => .error (.valueError ("Failed to ingest Parquet file: " ++ errStr e))

/-- `TxtDataIngestor.ingest` (lines 350-378).  The source calls
`DataIngestor.read_file(file_path, '.json')` (line 365) and sets
`'file_type': '.json'` (line 370); both are preserved here exactly as
written. -/
def txtIngest (fs : Fs) (path : String) : Except PyErr Metadata :=
  if !strEndsWith path ".txt" then
    .error (.valueError "The provided file is not a TXT file.")
  else
    match read_file fs path ".json" with
    | .ok (df, instr) => .ok ⟨basename path, ".json", df.columns, df.rows.length, instr⟩
    | .error e => .error (.valueError ("Failed to ingest TXT file: " ++ errStr e))

/-! ## ZIP ingestion (src/data_ingestor.py lines 157-216)

The fixed shared extraction directory
(`PathManager.get_extracted_data_folder()`) is modelled as an explicit
piece of state: an association list `Dir` from member file names to
contents, threaded into `zipIngest`.  `zipfile.extractall` overwrites
entries of the same name and adds the rest; `os.listdir` returns the
names in the directory. -/

/-- The path of the fixed extraction directory. -/
def extractedDataFolder : String := "extracted_data"

/-- `os.path.join(extracted_data_folder, name)`. -/
def edp (n : String) : String := extractedDataFolder ++ "/" ++ n

/-- The extraction directory: file names mapped to contents. -/
abbrev Dir := List (String × FileContent)

/-- Write one file into the directory: overwrite an existing entry of the
same name, otherwise append. -/
def upsert : Dir → String → FileContent → Dir
  | [], n, c => [(n, c)]
  | (k, v) :: rest, n, c =>
    if k = n then (k, c) :: rest else (k, v) :: upsert rest n c

/-- `zip_ref.extractall(extracted_data_folder)`: write every member into
the directory. -/
def extractAll (dir : Dir) (members : List (String × FileContent)) : Dir :=
  members.foldl (fun d m => upsert d m.1 m.2) dir

/-- View the extraction directory as part of the file system, with each
entry at its joined path. -/
def fsOfDir (d : Dir) : Fs :=
  d.map (fun e => (edp e.1, e.2))

/-- The filter of line 186: keep names that start with neither `.`
nor `_`. -/
def eligibleName (n : String) : Bool :=
  !strStartsWith n "." && !strStartsWith n "_"

/-- The supported member formats (line 191). -/
def supportedFormats : List String :=
  [".csv", ".xlsx", ".parquet", ".json", ".txt"]

/-- Warning text of line 199. -/
def warnUnsupported (n : String) : String :=
  "Unsupported file type: " ++ n ++ ". Skipping."

/-- Warning text of line 214. -/
def warnFailed (n msg : String) : String :=
  "Failed to process " ++ n ++ ": " ++ msg

/-- The member loop of lines 194-214: for each file name, skip (with a
warning) unsupported extensions, read supported ones via `read_file` and
collect a metadata record, converting a per-member failure into a
warning.  Returns the metadata list and the warnings in loop order. -/
def processMembers (fsd : Fs) : List String → List Metadata × List String
  | [] => ([], [])
  | n :: rest =>
    if splitextExt n ∈ supportedFormats then
      match read_file fsd (edp n) (splitextExt n) with
      | .ok (df, instr) =>
        (⟨n, splitextExt n, df.columns, df.rows.length, instr⟩ :: (processMembers fsd rest).1,
         (processMembers fsd rest).2)
      | .error e =>
        ((processMembers fsd rest).1, warnFailed n (errStr e) :: (processMembers fsd rest).2)
    else ((processMembers fsd rest).1, warnUnsupported n :: (processMembers fsd rest).2)

/-- The error of line 188, raised when the filtered listing is empty. -/
def emptyArchiveErr : PyErr :=
  .fileNotFoundError "No files found within the .zip file."

/-- `ZipDataIngestor.ingest` (lines 158-216): extension and existence
pre-checks, extraction into the shared directory, listing and filtering
of the whole directory, then the member loop.  Returns the metadata
batch together with the warnings emitted. -/
def zipIngest (fs : Fs) (dir : Dir) (path : String) :
    Except PyErr (List Metadata × List String) :=
  if !strEndsWith path ".zip" then
    .error (.valueError "Provided file is not a .zip archive.")
  else
    match fsLookup fs path with
    | none => .error (.fileNotFoundError ("File " ++ path ++ " does not exist."))
    | some (.zipArchive members) =>
      let newDir := extractAll dir members
      let filtered := (newDir.map Prod.fst).filter eligibleName
      if filtered = [] then .error emptyArchiveErr
      else .ok (processMembers (fsOfDir newDir) filtered)
    | some _ => .error (.otherError "File is not a zip file")

/-! ## The factory (src/data_ingestor.py lines 381-410) -/

/-- The six ingestor variants the factory can return. -/
inductive IngestorKind where
  | zipK | csvK | xlsxK | parquetK | jsonK | txtK
deriving Repr, DecidableEq

/-- `DataFactory.get_ingestor`: the dictionary of line 396 followed by
the falsy check of line 407. -/
def get_ingestor (file_extension : String) : Except PyErr IngestorKind :=
  let ingestors : List (String × IngestorKind) :=
    [(".zip", .zipK), (".csv", .csvK), (".xlsx", .xlsxK),
     (".parquet", .parquetK), (".json", .jsonK), (".txt", .txtK)]
  match lookupStr ingestors file_extension with
  | some k => .ok k
  | none => .error (.valueError ("Unsupported file type: " ++ file_extension))

/-! ## Metadata persistence (src/data_ingestor.py lines 81-105) -/

/-- `DataIngestor.save_metadata`: the outcome of the external JSON write
(`open` + `json.dump`) is abstracted as `writeFailure` (`none` for a
successful write, `some msg` for an exception with message `msg` raised
inside the `try` block).  The `except` clause converts any failure into a
warning and the function returns normally; it never raises, and it never
touches the metadata it was given.  The returned list is the warnings
emitted. -/
def save_metadata (writeFailure : Option String) (metadata : List Metadata) :
    Except PyErr (List String) :=
  match writeFailure, metadata with
  | none, _ => .ok []
  | some e, _ => .ok ["Failed to save metadata: " ++ e]

/-! ## The reload step (src/data_loader.py lines 54-74)

`DataLoader.load_data` executes `eval(import_function)(**import_args)`
for each metadata entry: the recorded function name selects the pandas
reader, and the recorded keyword arguments are passed to it. -/

/-- First character of a string, with a default (used to convert the
recorded one-character delimiter string back to a delimiter). -/
def headCharD (s : String) (d : Char) : Char :=
  s.data.headD d

/-- Execute one recorded `import_instructions` against the file system:
the dynamic `eval(import_function)(**import_args)` call of
`data_loader.py` line 63, dispatching on the recorded function name. -/
def executeImport (fs : Fs) (instr : ImportInstructions) : Except PyErr Df :=
  if instr.function = "pd.read_csv" then
    match lookupStr instr.arguments "filepath_or_buffer" with
    | some p =>
      let delim :=
        match lookupStr instr.arguments "delimiter" with
        | some d => headCharD d ','
        | none => ','
      pdReadCsv fs p delim
    | none => .error (.otherError "read_csv missing filepath_or_buffer")
  else if instr.function = "pd.read_excel" then
    match lookupStr instr.arguments "io" with
    | some p => pdReadExcel fs p
    | none => .error (.otherError "read_excel missing io")
  else if instr.function = "pd.read_parquet" then
    match lookupStr instr.arguments "path" with
    | some p => pdReadParquet fs p
    | none => .error (.otherError "read_parquet missing path")
  else if instr.function = "pd.read_json" then
    match lookupStr instr.arguments "path_or_buf" with
    | some p => pdReadJson fs p
    | none => .error (.otherError "read_json missing path_or_buf")
  else
    .error (.otherError ("name is not defined: " ++ instr.function))

/-! ## Helper lemmas -/

/-- Executing a recorded `pd.read_csv` recipe without delimiter performs a
comma-delimited read of the recorded path. -/
theorem exec_read_csv (fs : Fs) (p : String) :
    executeImport fs ⟨"pd.read_csv", [("filepath_or_buffer", p)]⟩ = pdReadCsv fs p ',' := rfl

/-- Executing a recorded `pd.read_csv` recipe with the tab delimiter
performs a tab-delimited read of the recorded path. -/
theorem exec_read_csv_tab (fs : Fs) (p : String) :
    executeImport fs ⟨"pd.read_csv", [("filepath_or_buffer", p), ("delimiter", "\t")]⟩ =
      pdReadCsv fs p '\t' := rfl

theorem exec_read_excel (fs : Fs) (p : String) :
    executeImport fs ⟨"pd.read_excel", [("io", p)]⟩ = pdReadExcel fs p := rfl

theorem exec_read_parquet (fs : Fs) (p : String) :
    executeImport fs ⟨"pd.read_parquet", [("path", p)]⟩ = pdReadParquet fs p := rfl

theorem exec_read_json (fs : Fs) (p : String) :
    executeImport fs ⟨"pd.read_json", [("path_or_buf", p)]⟩ = pdReadJson fs p := rfl

/-- Key lemma: whenever `read_file` succeeds, executing the import
instructions it recorded against the same file system reproduces exactly
the same table. -/
theorem read_file_exec (fs : Fs) (path ext : String) (df : Df) (instr : ImportInstructions)
    (h : read_file fs path ext = .ok (df, instr)) :
    executeImport fs instr = .ok df := by
  unfold read_file at h
  split_ifs at h with h1 h2 h3 h4 h5
  · cases hc : pdReadCsv fs path ',' with
    | ok d =>
      rw [hc] at h
      simp only [Except.ok.injEq, Prod.mk.injEq] at h
      obtain ⟨rfl, rfl⟩ := h
      rw [exec_read_csv, hc]
    | error e => rw [hc] at h; cases h
  · cases hc : pdReadExcel fs path with
    | ok d =>
      rw [hc] at h
      simp only [Except.ok.injEq, Prod.mk.injEq] at h
      obtain ⟨rfl, rfl⟩ := h
      rw [exec_read_excel, hc]
    | error e => rw [hc] at h; cases h
  · cases hc : pdReadParquet fs path with
    | ok d =>
      rw [hc] at h
      simp only [Except.ok.injEq, Prod.mk.injEq] at h
      obtain ⟨rfl, rfl⟩ := h
      rw [exec_read_parquet, hc]
    | error e => rw [hc] at h; cases h
  · cases hc : pdReadJson fs path with
    | ok d =>
      rw [hc] at h
      simp only [Except.ok.injEq, Prod.mk.injEq] at h
      obtain ⟨rfl, rfl⟩ := h
      rw [exec_read_json, hc]
    | error e => rw [hc] at h; cases h
  · cases hc : pdReadCsv fs path '\t' with
    | ok d =>
      rw [hc] at h
      simp only [Except.ok.injEq, Prod.mk.injEq] at h
      obtain ⟨rfl, rfl⟩ := h
      rw [exec_read_csv_tab, hc]
    | error e => rw [hc] at h; cases h

/-- Every metadata record produced by the ZIP member loop comes from a
successful `read_file` on a listed member with a supported extension, and
its fields are exactly those assembled from the parsed table. -/
theorem processMembers_mem (fsd : Fs) (names : List String) (m : Metadata)
    (hm : m ∈ (processMembers fsd names).1) :
    ∃ n df instr, n ∈ names ∧ splitextExt n ∈ supportedFormats ∧
      read_file fsd (edp n) (splitextExt n) = .ok (df, instr) ∧
      m = ⟨n, splitextExt n, df.columns, df.rows.length, instr⟩ := by
  induction names with
  | nil => simp [processMembers] at hm
  | cons n rest ih =>
    unfold processMembers at hm
    by_cases hs : splitextExt n ∈ supportedFormats
    · rw [if_pos hs] at hm
      cases hr : read_file fsd (edp n) (splitextExt n) with
      | ok p =>
        obtain ⟨df, instr⟩ := p
        rw [hr] at hm
        rcases List.mem_cons.mp hm with h | h
        · exact ⟨n, df, instr, List.mem_cons_self n rest, hs, hr, h⟩
        · obtain ⟨n', df', i', hn', hs', hr', hm'⟩ := ih h
          exact ⟨n', df', i', List.mem_cons_of_mem n hn', hs', hr', hm'⟩
      | error e =>
        rw [hr] at hm
        obtain ⟨n', df', i', hn', hs', hr', hm'⟩ := ih hm
        exact ⟨n', df', i', List.mem_cons_of_mem n hn', hs', hr', hm'⟩
    · rw [if_neg hs] at hm
      obtain ⟨n', df', i', hn', hs', hr', hm'⟩ := ih hm
      exact ⟨n', df', i', List.mem_cons_of_mem n hn', hs', hr', hm'⟩

/-- Conversely, every listed member with a supported extension whose read
succeeds contributes its metadata record to the loop's output. -/
theorem processMembers_complete (fsd : Fs) (names : List String) (n : String)
    (df : Df) (instr : ImportInstructions)
    (hn : n ∈ names) (hs : splitextExt n ∈ supportedFormats)
    (hr : read_file fsd (edp n) (splitextExt n) = .ok (df, instr)) :
    (⟨n, splitextExt n, df.columns, df.rows.length, instr⟩ : Metadata) ∈
      (processMembers fsd names).1 := by
  induction names with
  | nil => cases hn
  | cons a rest ih =>
    unfold processMembers
    rcases List.mem_cons.mp hn with h | h
    · subst h
      rw [if_pos hs, hr]
      exact List.mem_cons_self _ _
    · by_cases hs' : splitextExt a ∈ supportedFormats
      · rw [if_pos hs']
        cases hra : read_file fsd (edp a) (splitextExt a) with
        | ok p =>
          obtain ⟨df', i'⟩ := p
          exact List.mem_cons_of_mem _ (ih h)
        | error e => exact ih h
      · rw [if_neg hs']
        exact ih h

/-- Writing a file into the directory preserves every name already
listed. -/
theorem mem_names_upsert (d : Dir) (k : String) (c : FileContent) (n : String)
    (h : n ∈ d.map Prod.fst) : n ∈ (upsert d k c).map Prod.fst := by
  induction d with
  | nil => cases h
  | cons e rest ih =>
    obtain ⟨k', v'⟩ := e
    rw [List.map_cons] at h
    unfold upsert
    by_cases hk : k' = k
    · rw [if_pos hk, List.map_cons]
      exact h
    · rw [if_neg hk, List.map_cons]
      rcases List.mem_cons.mp h with rfl | h'
      · exact List.mem_cons_self _ _
      · exact List.mem_cons_of_mem _ (ih h')

/-- Extraction preserves every name already present in the extraction
directory. -/
theorem mem_names_extractAll (members : List (String × FileContent)) (d : Dir) (n : String)
    (h : n ∈ d.map Prod.fst) : n ∈ (extractAll d members).map Prod.fst := by
  induction members generalizing d with
  | nil => exact h
  | cons m rest ih =>
    exact ih (upsert d m.1 m.2) (mem_names_upsert d m.1 m.2 n h)

/-- Evaluation of `zipIngest` once the pre-checks pass: extraction,
listing, filtering, then either the empty-archive error or the member
loop. -/
theorem zipIngest_eq (fs : Fs) (dir : Dir) (path : String)
    (members : List (String × FileContent))
    (hz : strEndsWith path ".zip" = true)
    (hfs : fsLookup fs path = some (.zipArchive members)) :
    zipIngest fs dir path =
      (if ((extractAll dir members).map Prod.fst).filter eligibleName = []
       then .error emptyArchiveErr
       else .ok (processMembers (fsOfDir (extractAll dir members))
                  (((extractAll dir members).map Prod.fst).filter eligibleName))) := by
  unfold zipIngest
  rw [hz, hfs]
  rfl

/-! ## Concrete fixtures used by the claim theorems -/

/-- A file system holding one record-oriented JSON file. -/
def fsJson : Fs := [("data.json", .jsonData ⟨["a", "b"], [["1", "2"]]⟩)]

/-- A file system holding one `.txt` file whose content is valid
record-oriented JSON, and one ordinary tab-delimited `.txt` file. -/
def fsTxt : Fs :=
  [("notes.txt", .jsonData ⟨["k"], [["v"]]⟩),
   ("table.txt", .text ["a\tb", "1\t2"])]

/-- The `sales.csv` scenario of the specification: header `id,amount`
and three data rows. -/
def salesFs : Fs := [("sales.csv", .text ["id,amount", "1,10", "2,20", "3,30"])]

/-- The metadata record the code actually produces for `sales.csv`. -/
def salesMeta : Metadata :=
  ⟨"sales.csv", ".csv", ["id", "amount"], 3,
   ⟨"pd.read_csv", [("filepath_or_buffer", "sales.csv")]⟩⟩

/-! ## The claims -/

/-- **C1.** The claim states that every successfully ingested file gets a
`file_type` consistent with the extension of its `file_name`.  The code
violates this: `JsonDataIngestor.ingest` (src/data_ingestor.py line 339)
sets `'file_type': '.parquet'` for a `.json` input, against its own
docstring ("Reads a JSON file and generates metadata") — a copy-paste
slip from the Parquet ingestor, also visible in its error message
`'Failed to ingest Parquet file'`.  This theorem evaluates the code at
the failing input `data.json`: the produced record names the file
`data.json` but types it `.parquet`. -/
theorem json_ingest_mislabels_file_type :
    jsonIngest fsJson "data.json" =
      .ok ⟨"data.json", ".parquet", ["a", "b"], 1,
        ⟨"pd.read_json", [("path_or_buf", "data.json")]⟩⟩ := rfl

/-- **C2.** The claim states that every `.txt` path is parsed as
tab-delimited text with the tab reader recorded in the recipe, never the
JSON reader.  The code violates this: `TxtDataIngestor.ingest`
(src/data_ingestor.py line 365) calls `read_file(file_path, '.json')`,
so a `.txt` file is parsed by `pd.read_json` and the recorded recipe
names `pd.read_json` with no delimiter — against the method's own
docstring ("Reads a tab-delimited TXT file").  Evaluated at concrete
inputs: a `.txt` file whose content happens to be valid JSON ingests with
the JSON reader recorded, and an ordinary tab-delimited `.txt` file fails
to ingest at all. -/
theorem txt_ingest_routes_to_json_reader :
    txtIngest fsTxt "notes.txt" =
      .ok ⟨"notes.txt", ".json", ["k"], 1,
        ⟨"pd.read_json", [("path_or_buf", "notes.txt")]⟩⟩ ∧
    txtIngest fsTxt "table.txt" =
      .error (.valueError "Failed to ingest TXT file: Trailing data") :=
  ⟨rfl, rfl⟩

/-- **C3 (counterexample).** For the `sales.csv` scenario the code does
produce file name, type, columns and row count as claimed, but the
recorded import instructions are `pd.read_csv` with keyword argument
`filepath_or_buffer` — not `csv_reader` with argument `path` as the claim
states. -/
theorem sales_csv_recipe_not_csv_reader :
    csvIngest salesFs "sales.csv" = .ok salesMeta ∧
    salesMeta.import_instructions ≠ ⟨"csv_reader", [("path", "sales.csv")]⟩ :=
  ⟨rfl, by decide⟩

/-- **C3 (amended).** For input `sales.csv` with header `id,amount` and 3
data rows, CSV ingestion returns exactly the metadata record
`{file_name: "sales.csv", file_type: ".csv", columns: ["id","amount"],
row_count: 3, import_instructions: {function: "pd.read_csv",
arguments: {filepath_or_buffer: "sales.csv"}}}`. -/
theorem sales_csv_metadata_exact :
    csvIngest salesFs "sales.csv" =
      .ok ⟨"sales.csv", ".csv", ["id", "amount"], 3,
        ⟨"pd.read_csv", [("filepath_or_buffer", "sales.csv")]⟩⟩ := rfl

/-- **C9.** For every metadata batch and every write failure during
persistence, `save_metadata` surfaces a warning and returns normally
(`Except.ok`, never `Except.error`); being a pure function of the batch,
it leaves the caller's batch untouched, so the run is not aborted and the
in-memory batch stays usable.  The successful-write case is included for
completeness: it returns normally with no warning. -/
theorem save_metadata_write_failure_nonfatal (metadata : List Metadata) (emsg : String) :
    save_metadata (some emsg) metadata = .ok ["Failed to save metadata: " ++ emsg] ∧
    save_metadata none metadata = .ok [] :=
  ⟨rfl, rfl⟩

/-- **C6.** `DataFactory.get_ingestor` maps each of the six recognized
extension strings to the corresponding ingestor variant, and fails with
the unsupported-format `ValueError` for every other extension string. -/
theorem factory_dispatch_and_unsupported :
    (get_ingestor ".zip" = .ok .zipK ∧ get_ingestor ".csv" = .ok .csvK ∧
     get_ingestor ".xlsx" = .ok .xlsxK ∧ get_ingestor ".parquet" = .ok .parquetK ∧
     get_ingestor ".json" = .ok .jsonK ∧ get_ingestor ".txt" = .ok .txtK) ∧
    ∀ ext : String, ext ∉ [".zip", ".csv", ".xlsx", ".parquet", ".json", ".txt"] →
      get_ingestor ext = .error (.valueError ("Unsupported file type: " ++ ext)) := by
  refine ⟨⟨rfl, rfl, rfl, rfl, rfl, rfl⟩, ?_⟩
  intro ext h
  simp only [List.mem_cons, List.not_mem_nil, or_false, not_or] at h
  obtain ⟨h1, h2, h3, h4, h5, h6⟩ := h
  simp [get_ingestor, lookupStr, h1, h2, h3, h4, h5, h6]

/-- Witness for C6: the six recognized extensions dispatch to their
variants, and the concrete unrecognized extension `.yaml` fails with the
unsupported-format error. -/
theorem factory_dispatch_and_unsupported_witness :
    (get_ingestor ".zip" = .ok .zipK ∧ get_ingestor ".csv" = .ok .csvK ∧
     get_ingestor ".xlsx" = .ok .xlsxK ∧ get_ingestor ".parquet" = .ok .parquetK ∧
     get_ingestor ".json" = .ok .jsonK ∧ get_ingestor ".txt" = .ok .txtK) ∧
    get_ingestor ".yaml" = .error (.valueError ("Unsupported file type: " ++ ".yaml")) :=
  ⟨factory_dispatch_and_unsupported.1,
   factory_dispatch_and_unsupported.2 ".yaml" (by decide)⟩

/-- **C7 (counterexample).** The claim states that every per-format
ingestor rejects a matching but non-existent path with `FileNotFound`
before parsing.  Only the CSV variant has that pre-check
(src/data_ingestor.py line 237); the Excel variant on the missing path
`a.xlsx` instead lets the reader fail and re-raises the failure as the
wrapped ingestion `ValueError` — not a `FileNotFoundError`. -/
theorem excel_missing_file_not_filenotfound :
    excelIngest [] "a.xlsx" =
      .error (.valueError "Failed to ingest Excel file: No such file or directory: a.xlsx") := rfl

/-- **C7 (amended).** On a non-existent path with matching extension, the
CSV ingestor fails with its `FileNotFoundError` pre-check, while the
Excel, Parquet, JSON and TXT ingestors (which have no existence
pre-check) fail with the ingestion-level `ValueError` wrapping the
reader's file-not-found failure. -/
theorem missing_file_error_kinds (fs : Fs) (path : String)
    (hmiss : fsLookup fs path = none) :
    (strEndsWith path ".csv" = true →
      csvIngest fs path =
        .error (.fileNotFoundError ("The file " ++ path ++ " does not exist."))) ∧
    ((strEndsWith path ".xlsx" || strEndsWith path ".xls") = true →
      excelIngest fs path =
        .error (.valueError ("Failed to ingest Excel file: No such file or directory: " ++ path))) ∧
    (strEndsWith path ".parquet" = true →
      parquetIngest fs path =
        .error (.valueError ("Failed to ingest Parquet file: No such file or directory: " ++ path))) ∧
    (strEndsWith path ".json" = true →
      jsonIngest fs path =
        .error (.valueError ("Failed to ingest Parquet file: No such file or directory: " ++ path))) ∧
    (strEndsWith path ".txt" = true →
      txtIngest fs path =
        .error (.valueError ("Failed to ingest TXT file: No such file or directory: " ++ path))) := by
  have hcsv : read_file fs path ".csv" =
      .error (.fileNotFoundError ("No such file or directory: " ++ path)) := by
    unfold read_file pdReadCsv
    rw [hmiss]
    rfl
  have hxlsx : read_file fs path ".xlsx" =
      .error (.fileNotFoundError ("No such file or directory: " ++ path)) := by
    unfold read_file pdReadExcel
    rw [hmiss]
    rfl
  have hparquet : read_file fs path ".parquet" =
      .error (.fileNotFoundError ("No such file or directory: " ++ path)) := by
    unfold read_file pdReadParquet
    rw [hmiss]
    rfl
  have hjson : read_file fs path ".json" =
      .error (.fileNotFoundError ("No such file or directory: " ++ path)) := by
    unfold read_file pdReadJson
    rw [hmiss]
    rfl
  refine ⟨?_, ?_, ?_, ?_, ?_⟩ <;> intro h
  · unfold csvIngest
    rw [h, hmiss]
    rfl
  · unfold excelIngest
    rw [h, hxlsx]
    rfl
  · unfold parquetIngest
    rw [h, hparquet]
    rfl
  · unfold jsonIngest
    rw [h, hjson]
    rfl
  · unfold txtIngest
    rw [h, hjson]
    rfl

/-- Witness for C7 (amended): concrete missing paths of each of the five
extensions, on the empty file system. -/
theorem missing_file_error_kinds_witness :
    csvIngest [] "a.csv" =
      .error (.fileNotFoundError ("The file " ++ "a.csv" ++ " does not exist.")) ∧
    excelIngest [] "b.xlsx" =
      .error (.valueError ("Failed to ingest Excel file: No such file or directory: " ++ "b.xlsx")) ∧
    parquetIngest [] "c.parquet" =
      .error (.valueError ("Failed to ingest Parquet file: No such file or directory: " ++ "c.parquet")) ∧
    jsonIngest [] "d.json" =
      .error (.valueError ("Failed to ingest Parquet file: No such file or directory: " ++ "d.json")) ∧
    txtIngest [] "e.txt" =
      .error (.valueError ("Failed to ingest TXT file: No such file or directory: " ++ "e.txt")) :=
  ⟨(missing_file_error_kinds [] "a.csv" rfl).1 rfl,
   (missing_file_error_kinds [] "b.xlsx" rfl).2.1 rfl,
   (missing_file_error_kinds [] "c.parquet" rfl).2.2.1 rfl,
   (missing_file_error_kinds [] "d.json" rfl).2.2.2.1 rfl,
   (missing_file_error_kinds [] "e.txt" rfl).2.2.2.2 rfl⟩

/-- **C5.** Once the ZIP pre-checks pass (a `.zip` path whose archive is
on disk), ingestion lists the expanded directory, excludes names starting
with `.` or `_` (the `eligibleName` filter), and fails with the
empty-archive error if and only if that filtered list is empty. -/
theorem zip_empty_archive_iff_filtered_empty (fs : Fs) (dir : Dir) (path : String)
    (members : List (String × FileContent))
    (hz : strEndsWith path ".zip" = true)
    (hfs : fsLookup fs path = some (.zipArchive members)) :
    zipIngest fs dir path = .error emptyArchiveErr ↔
      ((extractAll dir members).map Prod.fst).filter eligibleName = [] := by
  rw [zipIngest_eq fs dir path members hz hfs]
  by_cases he : ((extractAll dir members).map Prod.fst).filter eligibleName = []
  · rw [if_pos he]
    simp [he]
  · rw [if_neg he]
    simp [he]

/-- Witness for C5: a concrete archive whose only member name starts with
`_`; after filtering, the listing is empty and ingestion fails with the
empty-archive error. -/
theorem zip_empty_archive_iff_filtered_empty_witness :
    zipIngest [("e.zip", .zipArchive [("_hidden.csv", .text ["a,b", "1,2"])])] [] "e.zip" =
        .error emptyArchiveErr ↔
      ((extractAll [] [("_hidden.csv", FileContent.text ["a,b", "1,2"])]).map
        Prod.fst).filter eligibleName = [] :=
  zip_empty_archive_iff_filtered_empty
    [("e.zip", .zipArchive [("_hidden.csv", .text ["a,b", "1,2"])])] [] "e.zip"
    [("_hidden.csv", .text ["a,b", "1,2"])] rfl rfl

/-- One step of the ZIP member loop, as a rewriting equation. -/
theorem processMembers_cons (fsd : Fs) (n : String) (rest : List String) :
    processMembers fsd (n :: rest) =
      if splitextExt n ∈ supportedFormats then
        match read_file fsd (edp n) (splitextExt n) with
        | .ok (df, instr) =>
          (⟨n, splitextExt n, df.columns, df.rows.length, instr⟩ :: (processMembers fsd rest).1,
           (processMembers fsd rest).2)
        | .error e =>
          ((processMembers fsd rest).1, warnFailed n (errStr e) :: (processMembers fsd rest).2)
      else ((processMembers fsd rest).1, warnUnsupported n :: (processMembers fsd rest).2) := by
  rfl

/-- The joined extraction path determines the member name: `edp` is
injective. -/
theorem edp_inj (a b : String) (h : edp a = edp b) : a = b := by
  obtain ⟨la⟩ := a
  obtain ⟨lb⟩ := b
  have hd : "extracted_data/".data ++ la = "extracted_data/".data ++ lb :=
    congrArg String.data h
  have hl : la = lb := List.append_cancel_left hd
  rw [hl]

/-- `read_file` touches the file system only at its own path. -/
theorem read_file_congr (fs fs' : Fs) (p ext : String)
    (h : fsLookup fs p = fsLookup fs' p) :
    read_file fs p ext = read_file fs' p ext := by
  unfold read_file pdReadCsv pdReadExcel pdReadParquet pdReadJson
  rw [h]

/-- **C4.** A ZIP archive whose eligible members are one well-formed CSV
file and one corrupt-or-unsupported member — listed in either order —
ingests (into a clean extraction directory) without aborting: the result
is exactly the one metadata record of the valid CSV, plus exactly one
warning, and that warning names the other member (either the
unsupported-type warning or the failed-processing warning).  In
particular, when the failing member precedes the CSV in the listing, its
failure does not prevent the processing of the remaining member. -/
theorem zip_isolates_single_member_failure (fs : Fs) (path n1 n2 : String)
    (c1 c2 : FileContent) (df : Df)
    (members : List (String × FileContent))
    (hz : strEndsWith path ".zip" = true)
    (hfs : fsLookup fs path = some (.zipArchive members))
    (harch : members = [(n1, c1), (n2, c2)] ∨ members = [(n2, c2), (n1, c1)])
    (hne : n1 ≠ n2)
    (he1 : eligibleName n1 = true) (he2 : eligibleName n2 = true)
    (hext : splitextExt n1 = ".csv")
    (hgood : readCsvContent ',' c1 = .ok df)
    (hbad : splitextExt n2 ∉ supportedFormats ∨
      ∃ e, read_file [(edp n2, c2)] (edp n2) (splitextExt n2) = .error e) :
    ∃ w, zipIngest fs [] path =
      .ok ([⟨n1, ".csv", df.columns, df.rows.length,
             ⟨"pd.read_csv", [("filepath_or_buffer", edp n1)]⟩⟩], [w]) ∧
      (w = warnUnsupported n2 ∨ ∃ msg, w = warnFailed n2 msg) := by
  have hed : edp n1 ≠ edp n2 := fun hq => hne (edp_inj n1 n2 hq)
  have hed2 : edp n2 ≠ edp n1 := Ne.symm hed
  rcases harch with rfl | rfl
  · -- the valid CSV is listed before the failing member
    have hdir : extractAll [] [(n1, c1), (n2, c2)] = [(n1, c1), (n2, c2)] := by
      simp [extractAll, upsert, hne]
    rw [zipIngest_eq fs [] path _ hz hfs, hdir]
    have hfilter : ([(n1, c1), (n2, c2)].map Prod.fst).filter eligibleName = [n1, n2] := by
      simp [he1, he2]
    rw [hfilter]
    have hl1 : fsLookup (fsOfDir [(n1, c1), (n2, c2)]) (edp n1) = some c1 := by
      simp [fsOfDir, fsLookup, lookupStr]
    have hl2 : fsLookup (fsOfDir [(n1, c1), (n2, c2)]) (edp n2) = some c2 := by
      simp [fsOfDir, fsLookup, lookupStr, hed2]
    have hread1 : read_file (fsOfDir [(n1, c1), (n2, c2)]) (edp n1) ".csv" =
        .ok (df, ⟨"pd.read_csv", [("filepath_or_buffer", edp n1)]⟩) := by
      simp [read_file, pdReadCsv, hl1, hgood]
    have hstep1 : ∀ t : List Metadata × List String,
        processMembers (fsOfDir [(n1, c1), (n2, c2)]) [n2] = t →
        processMembers (fsOfDir [(n1, c1), (n2, c2)]) [n1, n2] =
          (⟨n1, ".csv", df.columns, df.rows.length,
             ⟨"pd.read_csv", [("filepath_or_buffer", edp n1)]⟩⟩ :: t.1, t.2) := by
      intro t ht
      rw [processMembers_cons, hext, if_pos (by decide), hread1, ht]
    by_cases hs2 : splitextExt n2 ∈ supportedFormats
    · obtain ⟨e, hb⟩ := hbad.resolve_left (by simpa using hs2)
      have hb' : read_file (fsOfDir [(n1, c1), (n2, c2)]) (edp n2) (splitextExt n2) =
          .error e := by
        rw [read_file_congr (fsOfDir [(n1, c1), (n2, c2)]) [(edp n2, c2)] (edp n2)
          (splitextExt n2) (by rw [hl2]; simp [fsLookup, lookupStr])]
        exact hb
      refine ⟨warnFailed n2 (errStr e), ?_, Or.inr ⟨errStr e, rfl⟩⟩
      have hp2 : processMembers (fsOfDir [(n1, c1), (n2, c2)]) [n2] =
          ([], [warnFailed n2 (errStr e)]) := by
        rw [processMembers_cons, if_pos hs2, hb']
        rfl
      rw [if_neg (by simp), hstep1 _ hp2]
    · refine ⟨warnUnsupported n2, ?_, Or.inl rfl⟩
      have hp2 : processMembers (fsOfDir [(n1, c1), (n2, c2)]) [n2] =
          ([], [warnUnsupported n2]) := by
        rw [processMembers_cons, if_neg hs2]
        rfl
      rw [if_neg (by simp), hstep1 _ hp2]
  · -- the failing member is listed before the valid CSV
    have hdir : extractAll [] [(n2, c2), (n1, c1)] = [(n2, c2), (n1, c1)] := by
      simp [extractAll, upsert, Ne.symm hne]
    rw [zipIngest_eq fs [] path _ hz hfs, hdir]
    have hfilter : ([(n2, c2), (n1, c1)].map Prod.fst).filter eligibleName = [n2, n1] := by
      simp [he1, he2]
    rw [hfilter]
    have hl1 : fsLookup (fsOfDir [(n2, c2), (n1, c1)]) (edp n1) = some c1 := by
      simp [fsOfDir, fsLookup, lookupStr, hed]
    have hl2 : fsLookup (fsOfDir [(n2, c2), (n1, c1)]) (edp n2) = some c2 := by
      simp [fsOfDir, fsLookup, lookupStr]
    have hread1 : read_file (fsOfDir [(n2, c2), (n1, c1)]) (edp n1) ".csv" =
        .ok (df, ⟨"pd.read_csv", [("filepath_or_buffer", edp n1)]⟩) := by
      simp [read_file, pdReadCsv, hl1, hgood]
    have hp1 : processMembers (fsOfDir [(n2, c2), (n1, c1)]) [n1] =
        ([⟨n1, ".csv", df.columns, df.rows.length,
           ⟨"pd.read_csv", [("filepath_or_buffer", edp n1)]⟩⟩], []) := by
      rw [processMembers_cons, hext, if_pos (by decide), hread1]
      rfl
    by_cases hs2 : splitextExt n2 ∈ supportedFormats
    · obtain ⟨e, hb⟩ := hbad.resolve_left (by simpa using hs2)
      have hb' : read_file (fsOfDir [(n2, c2), (n1, c1)]) (edp n2) (splitextExt n2) =
          .error e := by
        rw [read_file_congr (fsOfDir [(n2, c2), (n1, c1)]) [(edp n2, c2)] (edp n2)
          (splitextExt n2) (by rw [hl2]; simp [fsLookup, lookupStr])]
        exact hb
      refine ⟨warnFailed n2 (errStr e), ?_, Or.inr ⟨errStr e, rfl⟩⟩
      rw [if_neg (by simp), processMembers_cons, if_pos hs2, hb', hp1]
    · refine ⟨warnUnsupported n2, ?_, Or.inl rfl⟩
      rw [if_neg (by simp), processMembers_cons, if_neg hs2, hp1]

/-- Witness for C4, covering both listing orders: `bundle.zip` holds the
valid `a.csv` before the unsupported `notes.md`, while `bundle2.zip`
lists the unsupported member first; both ingest to exactly the CSV's
record plus one warning naming the other member. -/
theorem zip_isolates_single_member_failure_witness :
    (∃ w, zipIngest
        [("bundle.zip", .zipArchive
          [("a.csv", .text ["x,y", "1,2"]), ("notes.md", .text ["hello"])])] [] "bundle.zip" =
      .ok ([⟨"a.csv", ".csv", ["x", "y"], 1,
             ⟨"pd.read_csv", [("filepath_or_buffer", edp "a.csv")]⟩⟩], [w]) ∧
      (w = warnUnsupported "notes.md" ∨ ∃ msg, w = warnFailed "notes.md" msg)) ∧
    (∃ w, zipIngest
        [("bundle2.zip", .zipArchive
          [("notes.md", .text ["hello"]), ("a.csv", .text ["x,y", "1,2"])])] [] "bundle2.zip" =
      .ok ([⟨"a.csv", ".csv", ["x", "y"], 1,
             ⟨"pd.read_csv", [("filepath_or_buffer", edp "a.csv")]⟩⟩], [w]) ∧
      (w = warnUnsupported "notes.md" ∨ ∃ msg, w = warnFailed "notes.md" msg)) :=
  ⟨zip_isolates_single_member_failure
      [("bundle.zip", .zipArchive
        [("a.csv", .text ["x,y", "1,2"]), ("notes.md", .text ["hello"])])]
      "bundle.zip" "a.csv" "notes.md" (.text ["x,y", "1,2"]) (.text ["hello"])
      ⟨["x", "y"], [["1", "2"]]⟩
      [("a.csv", .text ["x,y", "1,2"]), ("notes.md", .text ["hello"])]
      rfl rfl (Or.inl rfl) (by decide) rfl rfl rfl rfl (Or.inl (by decide)),
   zip_isolates_single_member_failure
      [("bundle2.zip", .zipArchive
        [("notes.md", .text ["hello"]), ("a.csv", .text ["x,y", "1,2"])])]
      "bundle2.zip" "a.csv" "notes.md" (.text ["x,y", "1,2"]) (.text ["hello"])
      ⟨["x", "y"], [["1", "2"]]⟩
      [("notes.md", .text ["hello"]), ("a.csv", .text ["x,y", "1,2"])]
      rfl rfl (Or.inr rfl) (by decide) rfl rfl rfl rfl (Or.inl (by decide))⟩

/-- A successful ZIP ingestion comes from an archive on disk, and its
result is exactly the member loop over the filtered post-extraction
listing. -/
theorem zipIngest_ok (fs : Fs) (dir : Dir) (path : String)
    (ms : List Metadata) (ws : List String)
    (h : zipIngest fs dir path = .ok (ms, ws)) :
    ∃ members, fsLookup fs path = some (.zipArchive members) ∧
      (ms, ws) = processMembers (fsOfDir (extractAll dir members))
        (((extractAll dir members).map Prod.fst).filter eligibleName) := by
  by_cases hz : strEndsWith path ".zip" = true
  · cases hlk : fsLookup fs path with
    | none => simp [zipIngest, hz, hlk] at h
    | some c =>
      cases c with
      | zipArchive members =>
        rw [zipIngest_eq fs dir path members hz hlk] at h
        by_cases he : ((extractAll dir members).map Prod.fst).filter eligibleName = []
        · rw [if_pos he] at h
          cases h
        · rw [if_neg he] at h
          injection h with h'
          exact ⟨members, rfl, h'.symm⟩
      | text l => simp [zipIngest, hz, hlk] at h
      | xlsxData d => simp [zipIngest, hz, hlk] at h
      | parquetData d => simp [zipIngest, hz, hlk] at h
      | jsonData d => simp [zipIngest, hz, hlk] at h
  · have hz' : strEndsWith path ".zip" = false := by
      revert hz
      cases strEndsWith path ".zip" <;> simp
    simp [zipIngest, hz'] at h

/-- The file system a ZIP member's reload recipe is executed against: the
extraction directory as the ingestion run left it. -/
def zipReloadFs (fs : Fs) (dir : Dir) (path : String) : Fs :=
  match fsLookup fs path with
  | some (.zipArchive members) => fsOfDir (extractAll dir members)
  | _ => []

/-- **C8.** Round-trip: every metadata record produced by a successful
ingestion — by any of the five per-format ingestors, or for any member of
a ZIP batch — carries import instructions whose execution (the recorded
reader applied to the recorded arguments, as `DataLoader.load_data`
performs it) against the unchanged file system reproduces a table with
exactly the recorded column list and row count. -/
theorem ingest_reload_round_trip (fs : Fs) (dir : Dir) (path : String) :
    (∀ m : Metadata, csvIngest fs path = .ok m →
      ∃ df, executeImport fs m.import_instructions = .ok df ∧
        df.columns = m.columns ∧ df.rows.length = m.row_count) ∧
    (∀ m : Metadata, excelIngest fs path = .ok m →
      ∃ df, executeImport fs m.import_instructions = .ok df ∧
        df.columns = m.columns ∧ df.rows.length = m.row_count) ∧
    (∀ m : Metadata, parquetIngest fs path = .ok m →
      ∃ df, executeImport fs m.import_instructions = .ok df ∧
        df.columns = m.columns ∧ df.rows.length = m.row_count) ∧
    (∀ m : Metadata, jsonIngest fs path = .ok m →
      ∃ df, executeImport fs m.import_instructions = .ok df ∧
        df.columns = m.columns ∧ df.rows.length = m.row_count) ∧
    (∀ m : Metadata, txtIngest fs path = .ok m →
      ∃ df, executeImport fs m.import_instructions = .ok df ∧
        df.columns = m.columns ∧ df.rows.length = m.row_count) ∧
    (∀ (ms : List Metadata) (ws : List String) (m : Metadata),
      zipIngest fs dir path = .ok (ms, ws) → m ∈ ms →
      ∃ df, executeImport (zipReloadFs fs dir path) m.import_instructions = .ok df ∧
        df.columns = m.columns ∧ df.rows.length = m.row_count) := by
  refine ⟨?_, ?_, ?_, ?_, ?_, ?_⟩
  · intro m h
    unfold csvIngest at h
    split_ifs at h
    cases hr : read_file fs path ".csv" with
    | ok p =>
      obtain ⟨df, instr⟩ := p
      rw [hr] at h
      injection h with h'
      subst h'
      exact ⟨df, read_file_exec fs path ".csv" df instr hr, rfl, rfl⟩
    | error e => rw [hr] at h; cases h
  · intro m h
    unfold excelIngest at h
    split_ifs at h
    cases hr : read_file fs path ".xlsx" with
    | ok p =>
      obtain ⟨df, instr⟩ := p
      rw [hr] at h
      injection h with h'
      subst h'
      exact ⟨df, read_file_exec fs path ".xlsx" df instr hr, rfl, rfl⟩
    | error e => rw [hr] at h; cases h
  · intro m h
    unfold parquetIngest at h
    split_ifs at h
    cases hr : read_file fs path ".parquet" with
    | ok p =>
      obtain ⟨df, instr⟩ := p
      rw [hr] at h
      injection h with h'
      subst h'
      exact ⟨df, read_file_exec fs path ".parquet" df instr hr, rfl, rfl⟩
    | error e => rw [hr] at h; cases h
  · intro m h
    unfold jsonIngest at h
    split_ifs at h
    cases hr : read_file fs path ".json" with
    | ok p =>
      obtain ⟨df, instr⟩ := p
      rw [hr] at h
      injection h with h'
      subst h'
      exact ⟨df, read_file_exec fs path ".json" df instr hr, rfl, rfl⟩
    | error e => rw [hr] at h; cases h
  · intro m h
    unfold txtIngest at h
    split_ifs at h
    cases hr : read_file fs path ".json" with
    | ok p =>
      obtain ⟨df, instr⟩ := p
      rw [hr] at h
      injection h with h'
      subst h'
      exact ⟨df, read_file_exec fs path ".json" df instr hr, rfl, rfl⟩
    | error e => rw [hr] at h; cases h
  · intro ms ws m h hm
    obtain ⟨members, hlk, heq⟩ := zipIngest_ok fs dir path ms ws h
    have hms : ms = (processMembers (fsOfDir (extractAll dir members))
        (((extractAll dir members).map Prod.fst).filter eligibleName)).1 :=
      congrArg Prod.fst heq
    rw [hms] at hm
    obtain ⟨n, df, instr, hn, hs, hr, hmeq⟩ := processMembers_mem _ _ m hm
    subst hmeq
    refine ⟨df, ?_, rfl, rfl⟩
    have hrel : zipReloadFs fs dir path = fsOfDir (extractAll dir members) := by
      unfold zipReloadFs
      rw [hlk]
    rw [hrel]
    exact read_file_exec _ (edp n) (splitextExt n) df instr hr

/-- Witness for C8: reloading the recorded recipe of the ingested
`sales.csv` reproduces its recorded columns and row count. -/
theorem ingest_reload_round_trip_witness :
    ∃ df, executeImport salesFs salesMeta.import_instructions = .ok df ∧
      df.columns = salesMeta.columns ∧ df.rows.length = salesMeta.row_count :=
  (ingest_reload_round_trip salesFs [] "sales.csv").1 salesMeta rfl

/-- **C10.** ZIP ingestion lists the entire fixed shared extraction
directory rather than the archive's member list: any eligible, parseable
file already present in that directory before extraction — and not a
member of the archive being ingested — is also parsed and contributes its
own record to the returned metadata sequence. -/
theorem zip_includes_preexisting_dir_files (fs : Fs) (dir : Dir) (path name : String)
    (c : FileContent) (members : List (String × FileContent))
    (df : Df) (instr : ImportInstructions)
    (hz : strEndsWith path ".zip" = true)
    (hfs : fsLookup fs path = some (.zipArchive members))
    (hpre : (name, c) ∈ dir)
    (_hnotmem : name ∉ members.map Prod.fst)
    (hel : eligibleName name = true)
    (hsupp : splitextExt name ∈ supportedFormats)
    (hread : read_file (fsOfDir (extractAll dir members)) (edp name) (splitextExt name) =
      .ok (df, instr)) :
    ∃ ms ws, zipIngest fs dir path = .ok (ms, ws) ∧
      (⟨name, splitextExt name, df.columns, df.rows.length, instr⟩ : Metadata) ∈ ms := by
  have hname : name ∈ (extractAll dir members).map Prod.fst :=
    mem_names_extractAll members dir name (List.mem_map_of_mem Prod.fst hpre)
  have hfilt : name ∈ ((extractAll dir members).map Prod.fst).filter eligibleName :=
    List.mem_filter.mpr ⟨hname, hel⟩
  have hnil : ((extractAll dir members).map Prod.fst).filter eligibleName ≠ [] :=
    List.ne_nil_of_mem hfilt
  rw [zipIngest_eq fs dir path members hz hfs, if_neg hnil]
  exact ⟨_, _, rfl, processMembers_complete _ _ name df instr hfilt hsupp hread⟩

/-- Witness for C10: the extraction directory still holds `old.csv` from
an earlier run; ingesting `new.zip` (whose sole member is `fresh.csv`)
nevertheless returns a record for `old.csv`. -/
theorem zip_includes_preexisting_dir_files_witness :
    ∃ ms ws, zipIngest [("new.zip", .zipArchive [("fresh.csv", .text ["a,b", "1,2"])])]
        [("old.csv", .text ["p,q", "7,8"])] "new.zip" = .ok (ms, ws) ∧
      (⟨"old.csv", ".csv", ["p", "q"], 1,
        ⟨"pd.read_csv", [("filepath_or_buffer", edp "old.csv")]⟩⟩ : Metadata) ∈ ms :=
  zip_includes_preexisting_dir_files
    [("new.zip", .zipArchive [("fresh.csv", .text ["a,b", "1,2"])])]
    [("old.csv", .text ["p,q", "7,8"])] "new.zip" "old.csv"
    (.text ["p,q", "7,8"]) [("fresh.csv", .text ["a,b", "1,2"])]
    ⟨["p", "q"], [["7", "8"]]⟩
    ⟨"pd.read_csv", [("filepath_or_buffer", edp "old.csv")]⟩
    rfl rfl (List.mem_singleton.mpr rfl) (by decide) rfl (by decide) rfl

end DataIngest
